import Mathlib

set_option maxRecDepth 16384

/-!
# Verification of the devflow-cli scaffolding tool

Shallow embedding of the core logic of the `devflow-cli` repository:

* the version comparator `isNewerVersion` (src/src/ide.ts, lines 47-60),
* the dependency prober `checkDependencies` / `detectOS` (deps module,
  embedded in src/src/deps.test.ts lines 692-1033),
* the conflict detector `checkConflicts`, the conflict-prompt gate, the
  `.gitignore` merge step and the `initializeProject` orchestration
  (src/unnamed/part_000),
* the updater `updateIde` (src/src/ide.ts, lines 221-249).

JavaScript strings are modelled as Lean `String` / `List Char`; the
JavaScript number semantics relevant here (integers and NaN produced by
`Number(...)` on version segments) is modelled by the type `JSNum`.
Filesystem and process effects are modelled by explicit worlds (records of
probe outcomes / existing paths) and by traces of effect steps.
-/

namespace Devflow

/-! ## JavaScript number model

`Number(seg)` applied to a dot-free version segment, modelled at IEEE-754
double precision.  `JSNum.nan` stands for `NaN`, `JSNum.inf` / `JSNum.ninf`
for the two infinities, and `JSNum.num v` for a finite double whose value
is the integer `v` — every value `Number` produces from an integer literal
is such an integer, since rounding to a 53-bit significand preserves
integrality.  The syntax model: the empty string evaluates to `0`, a
string of decimal digits to its value rounded to double precision (round
to nearest, ties to even, overflow to infinity — `Number("9007199254740993")`
is `9007199254740992` in Node), a minus sign followed by digits to the
negated value, and everything else to `NaN`.  JavaScript's exotic numeric
syntaxes — hex, exponents, whitespace — are conservatively sent to `NaN`;
all comparison operators on `NaN` evaluate to `false`, exactly as in
JavaScript, so the theorems below do not depend on that corner. -/

inductive JSNum where
  | nan : JSNum
  | num : Int → JSNum
  | inf : JSNum
  | ninf : JSNum
deriving DecidableEq

/-- Numeric value of a list of decimal digits (most significant first). -/
def digitsNat (cs : List Char) : Nat :=
  cs.foldl (fun a c => a * 10 + (c.toNat - Char.toNat '0')) 0

/-- Number of low-order bits a natural must shed to fit a 53-bit
significand: the least `s` with `m / 2 ^ s < 2 ^ 53`.  The first argument
is fuel driving the recursion; `1024` halvings always suffice for the
inputs `jsDoubleRound` passes here (naturals below `2 ^ 1024`). -/
def extraBits : Nat → Nat → Nat
  | 0, _ => 0
  | fuel + 1, m => if m < 2 ^ 53 then 0 else extraBits fuel (m / 2) + 1

/-- Round a natural to the nearest IEEE-754 double (round to nearest, ties
to even): naturals below `2 ^ 53` are exact; larger ones keep a 53-bit
significand `q`, the dropped remainder `r` deciding the rounding
direction; results at or above `2 ^ 1024` overflow to infinity. -/
def jsDoubleRound (n : Nat) : JSNum :=
  if 2 ^ 1024 ≤ n then .inf
  else
    let s := extraBits 1024 n
    if s = 0 then .num (n : Int)
    else
      let q := n / 2 ^ s
      let r := n % 2 ^ s
      let half := 2 ^ (s - 1)
      let q2 :=
        if half < r then q + 1
        else if r < half then q
        else if q % 2 = 0 then q else q + 1
      if 2 ^ 1024 ≤ q2 * 2 ^ s then .inf else .num ((q2 * 2 ^ s : Nat) : Int)

/-- Model of JavaScript `Number(...)` on a single (dot-free) version
segment, at double precision. -/
def jsNumber (cs : List Char) : JSNum :=
  if cs.isEmpty then .num 0
  else if cs.all Char.isDigit then jsDoubleRound (digitsNat cs)
  else
    match cs with
    | '-' :: rest =>
        if !rest.isEmpty && rest.all Char.isDigit then
          match jsDoubleRound (digitsNat rest) with
          | .num v => .num (-v)
          | .inf => .ninf
          | other => other
        else .nan
    | _ => .nan

/-- JavaScript `>` on doubles: `false` whenever either side is `NaN`;
infinities compare above (below, for `ninf`) every finite value. -/
def jsGt : JSNum → JSNum → Bool
  | .nan, _ => false
  | _, .nan => false
  | .num a, .num b => decide (a > b)
  | .num _, .inf => false
  | .num _, .ninf => true
  | .inf, .inf => false
  | .inf, .num _ => true
  | .inf, .ninf => true
  | .ninf, _ => false

/-- JavaScript `<` on doubles: `false` whenever either side is `NaN`;
infinities compare above (below, for `ninf`) every finite value. -/
def jsLt : JSNum → JSNum → Bool
  | .nan, _ => false
  | _, .nan => false
  | .num a, .num b => decide (a < b)
  | .num _, .inf => true
  | .num _, .ninf => false
  | .inf, _ => false
  | .ninf, .ninf => false
  | .ninf, .num _ => true
  | .ninf, .inf => true

/-- Model of JavaScript `s.split(".")` on the character list of `s`:
`""` splits to `[""]`, and every `'.'` separates two (possibly empty)
segments. -/
def jsSplitDot : List Char → List (List Char)
  | [] => [[]]
  | c :: rest =>
      match jsSplitDot rest with
      | [] => [[c]]
      | seg :: segs => if c = '.' then [] :: seg :: segs else (c :: seg) :: segs

/-- Tail phase of the comparison loop of `isNewerVersion` once the remote
segment list is exhausted: each remaining iteration compares
`remotePart = 0` (the `?? 0` in the source) against the next local part. -/
def cmpZeroRemote : List JSNum → Bool
  | [] => false
  | l :: ls =>
      if jsGt (.num 0) l then true
      else if jsLt (.num 0) l then false
      else cmpZeroRemote ls

/-- Tail phase of the comparison loop of `isNewerVersion` once the local
segment list is exhausted: each remaining iteration compares the next
remote part against `localPart = 0` (the `?? 0` in the source). -/
def cmpZeroLocal : List JSNum → Bool
  | [] => false
  | r :: rs =>
      if jsGt r (.num 0) then true
      else if jsLt r (.num 0) then false
      else cmpZeroLocal rs

/-- The comparison loop of `isNewerVersion` (src/src/ide.ts lines 51-59):
walk both segment lists in parallel up to the longer length, a missing
segment standing for `0` (the `?? 0` in the source); return `true` at the
first index where remote > local, `false` at the first index where
remote < local, and `false` when the loop runs out.  The iterations past
the end of one list are factored into `cmpZeroRemote` / `cmpZeroLocal` so
that the recursion is structural. -/
def cmpParts : List JSNum → List JSNum → Bool
  | [], ls => cmpZeroRemote ls
  | r :: rs, [] => cmpZeroLocal (r :: rs)
  | r :: rs, l :: ls =>
      if jsGt r l then true
      else if jsLt r l then false
      else cmpParts rs ls

/-- Embedding of `isNewerVersion` (src/src/ide.ts lines 47-60): split both
strings on `"."`, send each segment through `Number`, and run the
comparison loop.  Total by construction, matching the fact that the
JavaScript source cannot throw. -/
def isNewerVersion (remote localVer : String) : Bool :=
  cmpParts ((jsSplitDot remote.toList).map jsNumber)
    ((jsSplitDot localVer.toList).map jsNumber)

/-- A valid dotted-numeric version string: every `.`-separated segment is a
non-empty string of decimal digits. -/
def validVersion (s : String) : Bool :=
  (jsSplitDot s.toList).all (fun seg => !seg.isEmpty && seg.all Char.isDigit)

/-- Spec-worded comparison (§4.2), tail phase with the remote side
exhausted (missing remote components default to `0`). -/
def specZeroRemote : List Nat → Bool
  | [] => false
  | l :: ls =>
      if 0 > l then true
      else if 0 < l then false
      else specZeroRemote ls

/-- Spec-worded comparison (§4.2), tail phase with the local side exhausted
(missing local components default to `0`). -/
def specZeroLocal : List Nat → Bool
  | [] => false
  | r :: rs =>
      if r > 0 then true
      else if r < 0 then false
      else specZeroLocal rs

/-- The version comparison as worded by the spec (§4.2), over the parsed
segment lists: compare component-wise as integers up to the longer length,
missing components defaulting to `0`; `true` at the first component where
remote > local, `false` at the first where remote < local, `false` when all
compared components are equal. -/
def specIsNewer : List Nat → List Nat → Bool
  | [], ls => specZeroRemote ls
  | r :: rs, [] => specZeroLocal (r :: rs)
  | r :: rs, l :: ls =>
      if r > l then true
      else if r < l then false
      else specIsNewer rs ls

/-- Parse a valid version string into its list of numeric components. -/
def parseVersion (s : String) : List Nat :=
  (jsSplitDot s.toList).map digitsNat

/-! ### Lemmas about the comparison loop -/

theorem jsGt_eq_jsLt (a b : JSNum) : jsGt a b = jsLt b a := by
  cases a <;> cases b <;> simp [jsGt, jsLt]

theorem jsGt_self (a : JSNum) : jsGt a a = false := by
  cases a <;> simp [jsGt]

theorem jsLt_self (a : JSNum) : jsLt a a = false := by
  cases a <;> simp [jsLt]

theorem cmpParts_self (xs : List JSNum) : cmpParts xs xs = false := by
  induction xs with
  | nil => simp [cmpParts, cmpZeroRemote]
  | cons x xs ih => simp [cmpParts, jsGt_self, jsLt_self, ih]

theorem cmpZero_asymm_rl (ls : List JSNum) (h : cmpZeroRemote ls = true) :
    cmpZeroLocal ls = false := by
  induction ls with
  | nil => simp [cmpZeroRemote] at h
  | cons l ls ih =>
    rw [cmpZeroRemote] at h
    rw [cmpZeroLocal]
    rw [jsGt_eq_jsLt, ← jsGt_eq_jsLt (.num 0) l]
    by_cases hgt : jsGt (.num 0) l = true
    · have hlt : jsLt (.num 0) l = false := by
        cases l <;> simp_all [jsGt, jsLt] <;> omega
      simp [hgt, hlt]
    · simp only [Bool.not_eq_true] at hgt
      simp only [hgt, if_false, Bool.false_eq_true] at h
      by_cases hlt : jsLt (.num 0) l = true
      · simp [hlt] at h
      · simp only [Bool.not_eq_true] at hlt
        simp only [hlt, if_false, Bool.false_eq_true] at h
        simp only [hgt, hlt, if_false, Bool.false_eq_true]
        exact ih h

theorem cmpZero_asymm_lr (rs : List JSNum) (h : cmpZeroLocal rs = true) :
    cmpZeroRemote rs = false := by
  induction rs with
  | nil => simp [cmpZeroLocal] at h
  | cons r rs ih =>
    rw [cmpZeroLocal] at h
    rw [cmpZeroRemote]
    rw [jsGt_eq_jsLt, ← jsGt_eq_jsLt r (.num 0)]
    by_cases hgt : jsGt r (.num 0) = true
    · have hlt : jsLt r (.num 0) = false := by
        cases r <;> simp_all [jsGt, jsLt] <;> omega
      simp [hgt, hlt]
    · simp only [Bool.not_eq_true] at hgt
      simp only [hgt, if_false, Bool.false_eq_true] at h
      by_cases hlt : jsLt r (.num 0) = true
      · simp [hlt] at h
      · simp only [Bool.not_eq_true] at hlt
        simp only [hlt, if_false, Bool.false_eq_true] at h
        simp only [hgt, hlt, if_false, Bool.false_eq_true]
        exact ih h

theorem cmpParts_asymm :
    ∀ xs ys : List JSNum, cmpParts xs ys = true → cmpParts ys xs = false := by
  intro xs
  induction xs with
  | nil =>
    intro ys h
    rw [cmpParts] at h
    cases ys with
    | nil => simp [cmpZeroRemote] at h
    | cons y ys => rw [cmpParts]; exact cmpZero_asymm_rl _ h
  | cons x xs ih =>
    intro ys h
    cases ys with
    | nil =>
      rw [cmpParts] at h
      rw [cmpParts]
      exact cmpZero_asymm_lr _ h
    | cons y ys =>
      rw [cmpParts] at h
      rw [cmpParts]
      rw [jsGt_eq_jsLt, ← jsGt_eq_jsLt x y]
      by_cases hgt : jsGt x y = true
      · have hlt : jsLt x y = false := by
          cases x <;> cases y <;> simp_all [jsGt, jsLt] <;> omega
        simp [hgt, hlt]
      · simp only [Bool.not_eq_true] at hgt
        simp only [hgt, if_false, Bool.false_eq_true] at h
        by_cases hlt : jsLt x y = true
        · simp [hlt] at h
        · simp only [Bool.not_eq_true] at hlt
          simp only [hlt, if_false, Bool.false_eq_true] at h
          simp only [hgt, hlt, if_false, Bool.false_eq_true]
          exact ih ys h

theorem cmpZeroRemote_map (ls : List Nat) :
    cmpZeroRemote (ls.map fun k : Nat => JSNum.num (k : Int)) = specZeroRemote ls := by
  induction ls with
  | nil => rfl
  | cons l ls ih =>
    simp only [List.map_cons]
    rw [cmpZeroRemote, specZeroRemote]
    simp only [jsGt, jsLt, ih]
    have h1 : ¬((0 : Int) > (l : Int)) := by omega
    have h2 : ¬(0 > l) := by omega
    by_cases h3 : 0 < l
    · have h4 : (0 : Int) < (l : Int) := by exact_mod_cast h3
      simp [h1, h2, h3, h4]
    · have h4 : ¬((0 : Int) < (l : Int)) := by exact_mod_cast h3
      simp [h1, h2, h3, h4]

theorem cmpZeroLocal_map (rs : List Nat) :
    cmpZeroLocal (rs.map fun k : Nat => JSNum.num (k : Int)) = specZeroLocal rs := by
  induction rs with
  | nil => rfl
  | cons r rs ih =>
    simp only [List.map_cons]
    rw [cmpZeroLocal, specZeroLocal]
    simp only [jsGt, jsLt, ih]
    have h1 : ¬((r : Int) < (0 : Int)) := by omega
    have h2 : ¬(r < 0) := by omega
    by_cases h3 : r > 0
    · have h4 : (r : Int) > (0 : Int) := by exact_mod_cast h3
      simp [h1, h2, h3, h4]
    · have h4 : ¬((r : Int) > (0 : Int)) := by exact_mod_cast h3
      simp [h1, h2, h3, h4]

theorem cmpParts_map (rs : List Nat) :
    ∀ ls : List Nat,
      cmpParts (rs.map fun k : Nat => JSNum.num (k : Int))
        (ls.map fun k : Nat => JSNum.num (k : Int)) = specIsNewer rs ls := by
  induction rs with
  | nil =>
    intro ls
    simp only [List.map_nil]
    rw [cmpParts, specIsNewer]
    exact cmpZeroRemote_map ls
  | cons r rs ih =>
    intro ls
    cases ls with
    | nil =>
      simp only [List.map_cons, List.map_nil]
      rw [cmpParts, specIsNewer]
      have h := cmpZeroLocal_map (r :: rs)
      simpa using h
    | cons l ls =>
      simp only [List.map_cons]
      rw [cmpParts, specIsNewer]
      simp only [jsGt, jsLt, ih ls]
      by_cases h1 : r > l
      · have h2 : (r : Int) > (l : Int) := by exact_mod_cast h1
        simp [h1, h2]
      · have h2 : ¬((r : Int) > (l : Int)) := by exact_mod_cast h1
        by_cases h3 : r < l
        · have h4 : (r : Int) < (l : Int) := by exact_mod_cast h3
          simp [h1, h2, h3, h4]
        · have h4 : ¬((r : Int) < (l : Int)) := by exact_mod_cast h3
          simp [h1, h2, h3, h4]

theorem extraBits_of_lt (fuel m : Nat) (h : m < 2 ^ 53) :
    extraBits fuel m = 0 := by
  cases fuel with
  | zero => rfl
  | succ f => rw [extraBits, if_pos h]

theorem jsDoubleRound_small (n : Nat) (h : n < 2 ^ 53) :
    jsDoubleRound n = .num (n : Int) := by
  have h1 : ¬(2 ^ 1024 ≤ n) := by
    intro hc
    have h2 : (2 : Nat) ^ 53 ≤ 2 ^ 1024 := Nat.pow_le_pow_right (by omega) (by omega)
    omega
  unfold jsDoubleRound
  rw [if_neg h1, extraBits_of_lt _ _ h]
  simp

theorem jsNumber_of_digits (seg : List Char) (h1 : seg.isEmpty = false)
    (h2 : seg.all Char.isDigit = true) (h3 : digitsNat seg < 2 ^ 53) :
    jsNumber seg = .num (digitsNat seg : Int) := by
  simp [jsNumber, h1, h2, jsDoubleRound_small _ h3]

theorem map_jsNumber_of_valid :
    ∀ segs : List (List Char),
      (segs.all fun seg => !seg.isEmpty && seg.all Char.isDigit) = true →
      (∀ seg ∈ segs, digitsNat seg < 2 ^ 53) →
      segs.map jsNumber
        = (segs.map digitsNat).map (fun k : Nat => JSNum.num (k : Int)) := by
  intro segs h hs
  induction segs with
  | nil => rfl
  | cons s ss ih =>
    simp only [List.all_cons, Bool.and_eq_true, Bool.not_eq_true'] at h
    simp only [List.map_cons]
    rw [jsNumber_of_digits s h.1.1 h.1.2 (hs s (List.mem_cons_self s ss)),
      ih h.2 (fun seg hseg => hs seg (List.mem_cons_of_mem _ hseg))]

/-- **C10.** `isNewerVersion` is total on arbitrary strings (the Lean
embedding is a total function, matching the fact that the JavaScript
source cannot throw on any string input), and for every string `s` —
including strings with non-numeric or empty segments —
`isNewerVersion s s` is `false`: at every index the two components are
equal, so each per-component comparison (also the `NaN` ones, where both
`>` and `<` are false) fails to decide, and the loop falls through to the
final `false`.  (Empty segments actually evaluate to `0`, not `NaN`, under
JavaScript `Number`; the property holds either way.) -/
theorem isNewerVersion_self_false (s : String) : isNewerVersion s s = false := by
  unfold isNewerVersion
  exact cmpParts_self _

/-- **C2.** For valid dotted-numeric version strings `a`, `b`, the relation
`isNewerVersion` is asymmetric (`isNewerVersion a b` and
`isNewerVersion b a` are never both true) and irreflexive
(`isNewerVersion a a` is always false). -/
theorem isNewerVersion_asymm_irrefl (a b : String)
    (ha : validVersion a = true) (hb : validVersion b = true) :
    ¬(isNewerVersion a b = true ∧ isNewerVersion b a = true)
      ∧ isNewerVersion a a = false := by
  constructor
  · rintro ⟨h1, h2⟩
    unfold isNewerVersion at h1 h2
    rw [cmpParts_asymm _ _ h1] at h2
    exact Bool.false_ne_true h2
  · unfold isNewerVersion
    exact cmpParts_self _

/-- Witness for `isNewerVersion_asymm_irrefl` at `a = "2.3"`, `b = "2.10"`. -/
theorem isNewerVersion_asymm_irrefl_witness :
    validVersion "2.3" = true ∧ validVersion "2.10" = true ∧
      (¬(isNewerVersion "2.3" "2.10" = true ∧ isNewerVersion "2.10" "2.3" = true)
        ∧ isNewerVersion "2.3" "2.3" = false) :=
  ⟨by decide, by decide,
    isNewerVersion_asymm_irrefl "2.3" "2.10" (by decide) (by decide)⟩

/-- **C3, counterexample.** The claim asserts the exact component-wise
integer comparison for all valid dotted-numeric strings, but JavaScript
numbers are IEEE-754 doubles: `Number("9007199254740993")` rounds to
`9007199254740992` (doubles are spaced 2 apart above `2 ^ 53`), so the
program returns `false` on the valid pair below where the exact integer
comparison of the spec returns `true`. -/
theorem isNewerVersion_rounding_counterexample :
    validVersion "9007199254740993" = true
      ∧ validVersion "9007199254740992" = true
      ∧ isNewerVersion "9007199254740993" "9007199254740992" = false
      ∧ specIsNewer (parseVersion "9007199254740993")
          (parseVersion "9007199254740992") = true := by decide

/-- **C3, amended.** On valid dotted-numeric version strings all of whose
component values lie below `2 ^ 53` — the range where JavaScript doubles
are exact — `isNewerVersion` computes exactly the component-wise integer
comparison described by the spec (missing trailing components default to
`0`, `true` at the first component where remote > local, `false` at the
first where remote < local, `false` when all compared components are
equal); in particular `isNewerVersion "1.0" "1.0.1" = false` and
`isNewerVersion "1.0.1" "1.0" = true`.  Above `2 ^ 53` double rounding can
merge distinct components. -/
theorem isNewerVersion_componentwise (a b : String)
    (ha : validVersion a = true) (hb : validVersion b = true)
    (hsa : ∀ k ∈ parseVersion a, k < 2 ^ 53)
    (hsb : ∀ k ∈ parseVersion b, k < 2 ^ 53) :
    isNewerVersion a b = specIsNewer (parseVersion a) (parseVersion b)
      ∧ isNewerVersion "1.0" "1.0.1" = false
      ∧ isNewerVersion "1.0.1" "1.0" = true := by
  refine ⟨?_, by decide, by decide⟩
  unfold validVersion at ha hb
  unfold parseVersion at hsa hsb
  have hsa2 : ∀ seg ∈ jsSplitDot a.toList, digitsNat seg < 2 ^ 53 :=
    fun seg hseg => hsa _ (List.mem_map_of_mem digitsNat hseg)
  have hsb2 : ∀ seg ∈ jsSplitDot b.toList, digitsNat seg < 2 ^ 53 :=
    fun seg hseg => hsb _ (List.mem_map_of_mem digitsNat hseg)
  unfold isNewerVersion parseVersion
  rw [map_jsNumber_of_valid _ ha hsa2, map_jsNumber_of_valid _ hb hsb2,
    cmpParts_map]

/-- Witness for `isNewerVersion_componentwise` at `a = "1.0"`,
`b = "1.0.1"`. -/
theorem isNewerVersion_componentwise_witness :
    validVersion "1.0" = true ∧ validVersion "1.0.1" = true
      ∧ (∀ k ∈ parseVersion "1.0", k < 2 ^ 53)
      ∧ (∀ k ∈ parseVersion "1.0.1", k < 2 ^ 53)
      ∧ (isNewerVersion "1.0" "1.0.1"
            = specIsNewer (parseVersion "1.0") (parseVersion "1.0.1")
          ∧ isNewerVersion "1.0" "1.0.1" = false
          ∧ isNewerVersion "1.0.1" "1.0" = true) :=
  ⟨by decide, by decide, by decide, by decide,
    isNewerVersion_componentwise "1.0" "1.0.1" (by decide) (by decide)
      (by decide) (by decide)⟩

/-! ## Dependency prober (deps module, embedded in src/src/deps.test.ts
lines 692-1033)

Probe outcomes and ambient platform data are modelled by a `DepsWorld`
record; the functions additionally return the list of shell commands they
would execute, so that "performs no probes" is expressible as an empty
command log. -/

/-- `String.includes` of JavaScript: `listStarts hay needle` is the prefix
test on character lists. -/
def listStarts : List Char → List Char → Bool
  | _, [] => true
  | [], _ :: _ => false
  | h :: hs, n :: ns => h = n && listStarts hs ns

/-- `listHas hay needle`: `needle` occurs contiguously in `hay`. -/
def listHas : List Char → List Char → Bool
  | [], needle => needle.isEmpty
  | h :: hs, needle => listStarts (h :: hs) needle || listHas hs needle

/-- Model of JavaScript `s.includes(sub)`. -/
def jsIncludes (s sub : String) : Bool := listHas s.toList sub.toList

/-- Model of JavaScript `s.toLowerCase()` (ASCII range suffices here). -/
def jsToLower (s : String) : String := String.mk (s.toList.map Char.toLower)

structure OSInfo where
  id : String
  name : String
deriving DecidableEq

structure DependencyCheckResult where
  hasErrors : Bool
  missingCli : List String
  missingWeb : List String
  osId : String
  osName : String
deriving DecidableEq

/-- Ambient world for the dependency prober: the platform identifier, the
outcome of the Linux release-file probe (`none` = the shell command threw),
and for each probed tool whether the executable resolves and what its
version probe printed (`none` = the version command threw). -/
structure DepsWorld where
  platform : String
  osRelease : Option String
  gitExists : Bool
  gitVersion : Option String
  claudeExists : Bool
  nodeExists : Bool
  nodeVersion : Option String
  python3Exists : Bool
  python3Version : Option String
  pythonExists : Bool
  pythonVersion : Option String
  gccExists : Bool
  makeExists : Bool

/-- Embedding of `detectOS` (deps module): `darwin` and `win32` map
directly; otherwise the release file is probed and its lowercased content
searched for distribution markers, any failure degrading to generic
`linux`.  The second component is the log of shell commands executed. -/
def detectOS (w : DepsWorld) : OSInfo × List String :=
  if w.platform = "darwin" then (⟨"macos", "macOS"⟩, [])
  else if w.platform = "win32" then (⟨"windows", "Windows"⟩, [])
  else
    let log := ["cat /etc/os-release"]
    match w.osRelease with
    | none => (⟨"linux", "Linux"⟩, log)
    | some stdout =>
      let content := jsToLower stdout
      if jsIncludes content "ubuntu" || jsIncludes content "debian"
          || jsIncludes content "linuxmint" || jsIncludes content "pop" then
        (⟨"ubuntu", "Ubuntu/Debian"⟩, log)
      else if jsIncludes content "fedora" then (⟨"fedora", "Fedora"⟩, log)
      else if jsIncludes content "rhel" || jsIncludes content "centos"
          || jsIncludes content "rocky" || jsIncludes content "almalinux" then
        (⟨"rhel", "RHEL/CentOS/Rocky"⟩, log)
      else if jsIncludes content "arch" || jsIncludes content "manjaro" then
        (⟨"arch", "Arch Linux"⟩, log)
      else (⟨"linux", "Linux"⟩, log)

/-- First maximal run of decimal digits in a character list.  This is the
capture group of the source's `/v?(\d+)/` match on the Node version string
(the optional leading `v` does not change the captured digits). -/
def firstDigitRun : List Char → Option (List Char)
  | [] => none
  | c :: cs =>
      if c.isDigit then some (c :: cs.takeWhile Char.isDigit)
      else firstDigitRun cs

/-- Major version extracted from a Node `--version` output, modelling
`version.match(/v?(\d+)/)` followed by `parseInt`. -/
def nodeMajor (s : String) : Option Nat :=
  (firstDigitRun s.toList).map digitsNat

/-- Scan for the source's `/Python (\d+)/` match: the first occurrence of
the literal `"Python "` followed by at least one digit; returns the
captured major number. -/
def pythonMajorAux : List Char → Option Nat
  | [] => none
  | c :: cs =>
      if listStarts (c :: cs) ("Python ".toList) then
        match (c :: cs).drop 7 with
        | d :: rest =>
            if d.isDigit then some (digitsNat (d :: rest.takeWhile Char.isDigit))
            else pythonMajorAux cs
        | [] => pythonMajorAux cs
      else pythonMajorAux cs

/-- Major version extracted from a Python `--version` output. -/
def pythonMajor (s : String) : Option Nat := pythonMajorAux s.toList

/-- Embedding of `checkDependencies` (deps module).  With `skipDeps = true`
it returns the all-clear report immediately; otherwise it runs `detectOS`
and the six tool probes, accumulating `missingCli` / `missingWeb` exactly
as the source pushes onto them, and finally assembles the report with
`hasErrors := missingCli.length > 0 || missingWeb.length > 0`.  The second
component is the log of shell commands executed by the probes. -/
def checkDependencies (skipDeps : Bool) (w : DepsWorld) :
    DependencyCheckResult × List String :=
  if skipDeps then
    (⟨false, [], [], "unknown", "Unknown"⟩, [])
  else
    let osPair := detectOS w
    let cliGit : List String × List String :=
      if w.gitExists then ([], ["command -v git", "git --version"])
      else (["git"], ["command -v git"])
    let cliClaude : List String × List String :=
      if w.claudeExists then ([], ["command -v claude"])
      else (["claude-code"], ["command -v claude"])
    let webNode : List String × List String :=
      if w.nodeExists then
        (match w.nodeVersion with
          | some v =>
              match nodeMajor v with
              | some major => if major ≥ 18 then [] else ["nodejs-upgrade"]
              | none => []
          | none => [],
         ["command -v node", "node --version"])
      else (["nodejs"], ["command -v node"])
    let webPy : List String × List String :=
      if w.python3Exists then ([], ["command -v python3", "python3 --version"])
      else if w.pythonExists then
        (match w.pythonVersion with
          | some v =>
              match pythonMajor v with
              | some major => if major ≥ 3 then [] else ["python3"]
              | none => ["python3"]
          | none => [],
         ["command -v python3", "command -v python", "python --version"])
      else (["python3"], ["command -v python3", "command -v python"])
    let webGcc : List String × List String :=
      if w.gccExists then ([], ["command -v gcc"]) else (["gcc"], ["command -v gcc"])
    let webMake : List String × List String :=
      if w.makeExists then ([], ["command -v make"]) else (["make"], ["command -v make"])
    let missingCli := cliGit.1 ++ cliClaude.1
    let missingWeb := webNode.1 ++ webPy.1 ++ webGcc.1 ++ webMake.1
    (⟨decide (missingCli.length > 0) || decide (missingWeb.length > 0),
        missingCli, missingWeb, osPair.1.id, osPair.1.name⟩,
      osPair.2 ++ cliGit.2 ++ cliClaude.2 ++ webNode.2 ++ webPy.2
        ++ webGcc.2 ++ webMake.2)

/-- **C4.** `checkDependencies true` performs no tool probe and no OS
detection (its command log is empty and the result does not depend on the
world), and returns the all-clear report: `hasErrors = false`, empty
`missingCli` and `missingWeb`, OS classified `"unknown"` / `"Unknown"`. -/
theorem checkDependencies_skip_all_clear (w : DepsWorld) :
    checkDependencies true w
      = (⟨false, [], [], "unknown", "Unknown"⟩, []) := rfl

/-- **C5.** Every report returned by `checkDependencies` — for either value
of the skip argument and any probe outcomes — satisfies
`hasErrors = true` exactly when `missingCli` and `missingWeb` together
hold at least one entry. -/
theorem checkDependencies_hasErrors_iff (skipDeps : Bool) (w : DepsWorld) :
    (checkDependencies skipDeps w).1.hasErrors = true
      ↔ 0 < (checkDependencies skipDeps w).1.missingCli.length
          + (checkDependencies skipDeps w).1.missingWeb.length := by
  cases skipDeps with
  | true => simp [checkDependencies]
  | false =>
    simp only [checkDependencies, Bool.false_eq_true, if_false,
      Bool.or_eq_true, decide_eq_true_eq]
    omega

/-! ## Template installer (src/unnamed/part_000)

The filesystem is modelled by a predicate `ex : String → Bool` giving the
paths that exist under the target before installation, plus explicit
fields for the cloned template's content.  Effects are recorded as a trace
of `Step`s.  `process.exit(0)` is modelled faithfully to Node semantics:
it terminates the process at once, so an exit inside the `try` block
prevents the `finally` cleanup from running. -/

/-- Model of `path.join` / `path.resolve` for the relative names used here:
plain separator concatenation. -/
def joinPath (a b : String) : String := a ++ "/" ++ b

/-- The folders probed by `checkConflicts`
(src/unnamed/part_000 line 46). -/
def foldersToCheck : List String :=
  [".claude/commands/agents", ".devflow", "docs"]

/-- Embedding of `checkConflicts` (src/unnamed/part_000 lines 42-59): for
each folder of `foldersToCheck`, probe `target/<folder>` and push the
folder name onto the accumulator when it exists. -/
def checkConflicts (ex : String → Bool) (targetPath : String) : List String :=
  foldersToCheck.foldl
    (fun conflicts folder =>
      if ex (joinPath targetPath folder) then conflicts ++ [folder]
      else conflicts)
    []

/-- Model of JavaScript `s.startsWith(p)`. -/
def jsStartsWith (s p : String) : Bool := listStarts s.toList p.toList

/-- The conflict-gate acceptance test of `initializeProject`
(src/unnamed/part_000 line 185): the installation continues exactly when
`answer.toLowerCase().startsWith("y")`. -/
def acceptsContinue (answer : String) : Bool :=
  jsStartsWith (jsToLower answer) "y"

/-- Embedding of the `.gitignore` config-merge step
(src/unnamed/part_000 lines 200-225) on the two optional file contents
(template's, then target's): no template `.gitignore` means no action; a
template one with no target one is copied verbatim; with both present the
target is overwritten by `existing ++ "\n" ++ template`.  The second
component counts the file writes performed (the `writeFile` of the merge
branch, or the `cp` of the fresh-copy branch). -/
def mergeGitignore : Option String → Option String → Option String × Nat
  | none, tgt => (tgt, 0)
  | some dev, some existing => (some (existing ++ "\n" ++ dev), 1)
  | some dev, none => (some dev, 1)

/-- Effect steps of one `initializeProject` run.  The three best-effort
copy sub-steps of `copyDevFlowFiles` are each summarised by one success
step or one warning step; their internal mkdir/copy sequence is not
observable by any claim. -/
inductive Step where
  | mkdirTarget
  | cloneTemp
  | promptUser
  | copyAgents
  | warnAgents
  | makeDevflow
  | warnDevflow
  | copyDocs
  | keepDocs
  | warnDocs
  | mkdirSnapshots
  | mergeGitignoreWrite
  | copyGitignoreFresh
  | removeTemp
  | reportSuccess
deriving DecidableEq

/-- World of one `initializeProject` run: the CLI argument and working
directory, the pre-existing paths under the target, the user's answer to
the conflict prompt, whether `git clone` succeeds, and what the cloned
template provides. -/
structure InitWorld where
  folder : Option String
  cwd : String
  ex : String → Bool
  answer : String
  cloneOk : Bool
  tmplHasAgents : Bool
  tmplHasDevflow : Bool
  tmplHasDocs : Bool
  tmplGitignore : Option String
  targetGitignore : Option String

/-- Target-path resolution of `initializeProject`
(src/unnamed/part_000 lines 144-149). -/
def resolveTarget (w : InitWorld) : String :=
  match w.folder with
  | some f => joinPath w.cwd f
  | none => w.cwd

/-- Outcome of one `initializeProject` run: the exit code when
`process.exit` ran (`none` = normal return), whether an error propagated
to the caller, the ordered effect trace, and the final content of the
target `.gitignore`. -/
structure InitResult where
  exitCode : Option Nat
  threw : Bool
  steps : List Step
  gitignore : Option String
deriving DecidableEq

/-- Embedding of `initializeProject` (src/unnamed/part_000 lines 140-240).

* Clone failure: the exception propagates, but the `finally` block still
  removes the temp workspace before rethrowing.
* Conflict gate: when `checkConflicts` is non-empty the user is prompted;
  an answer whose lowercase form does not start with `"y"` triggers
  `process.exit(0)`, which terminates immediately — the `finally` cleanup
  does **not** run, so no `removeTemp` step appears on that path.
* Otherwise the three best-effort copy sub-steps run, `docs/snapshots` is
  ensured, the `.gitignore` merge step runs, and the `finally` cleanup
  removes the temp workspace. -/
def initializeProject (w : InitWorld) : InitResult :=
  let targetPath := resolveTarget w
  if w.cloneOk then
    if checkConflicts w.ex targetPath ≠ [] ∧ acceptsContinue w.answer = false then
      ⟨some 0, false, [Step.mkdirTarget, Step.cloneTemp, Step.promptUser],
        w.targetGitignore⟩
    else
      let promptSteps :=
        if checkConflicts w.ex targetPath ≠ [] then [Step.promptUser] else []
      let agents := if w.tmplHasAgents then [Step.copyAgents] else [Step.warnAgents]
      let devflow :=
        if w.tmplHasDevflow then [Step.makeDevflow] else [Step.warnDevflow]
      let docs :=
        if w.ex (joinPath targetPath "docs") then [Step.keepDocs]
        else if w.tmplHasDocs then [Step.copyDocs]
        else [Step.warnDocs]
      let gi :=
        match w.tmplGitignore, w.targetGitignore with
        | none, _ => []
        | some _, some _ => [Step.mergeGitignoreWrite]
        | some _, none => [Step.copyGitignoreFresh]
      ⟨none, false,
        [Step.mkdirTarget, Step.cloneTemp] ++ promptSteps ++ agents ++ devflow
          ++ docs ++ [Step.mkdirSnapshots] ++ gi
          ++ [Step.removeTemp, Step.reportSuccess],
        (mergeGitignore w.tmplGitignore w.targetGitignore).1⟩
  else
    ⟨none, true, [Step.mkdirTarget, Step.removeTemp], w.targetGitignore⟩

theorem foldl_push_mem (P : String → Bool) :
    ∀ (l acc : List String) (x : String),
      x ∈ l.foldl (fun c f => if P f then c ++ [f] else c) acc
        ↔ x ∈ acc ∨ (x ∈ l ∧ P x = true) := by
  intro l
  induction l with
  | nil => intro acc x; simp
  | cons a l ih =>
    intro acc x
    simp only [List.foldl_cons]
    by_cases h : P a = true
    · rw [if_pos h, ih]
      simp only [List.mem_append, List.mem_cons, List.mem_nil_iff, or_false]
      constructor
      · rintro ((hx | rfl) | ⟨hx, hp⟩)
        · exact Or.inl hx
        · exact Or.inr ⟨Or.inl rfl, h⟩
        · exact Or.inr ⟨Or.inr hx, hp⟩
      · rintro (hx | ⟨rfl | hx, hp⟩)
        · exact Or.inl (Or.inl hx)
        · exact Or.inl (Or.inr rfl)
        · exact Or.inr ⟨hx, hp⟩
    · rw [if_neg h, ih]
      constructor
      · rintro (hx | ⟨hx, hp⟩)
        · exact Or.inl hx
        · exact Or.inr ⟨List.mem_cons_of_mem _ hx, hp⟩
      · rintro (hx | ⟨hx, hp⟩)
        · exact Or.inl hx
        · rcases List.mem_cons.mp hx with rfl | hx
          · exact absurd hp h
          · exact Or.inr ⟨hx, hp⟩

/-- Filesystem with exactly one path: `t/.gitignore`. -/
def gitignoreOnlyFS : String → Bool := fun p => p == joinPath "t" ".gitignore"

/-- **C7, counterexample.** The claim says `checkConflicts` probes every
top-level InstallPlan path including `.gitignore` and returns exactly the
ones that exist.  On a target containing exactly a `.gitignore`, the code
returns the empty list: `.gitignore` is never probed
(src/unnamed/part_000 line 46 lists only the three folders). -/
theorem checkConflicts_ignores_gitignore :
    gitignoreOnlyFS (joinPath "t" ".gitignore") = true
      ∧ checkConflicts gitignoreOnlyFS "t" = []
      ∧ ".gitignore" ∉ checkConflicts gitignoreOnlyFS "t" := by decide

/-- Filesystem with exactly one path: `t/.devflow`. -/
def devflowOnlyFS : String → Bool := fun p => p == joinPath "t" ".devflow"

/-- **C7, amended.** `checkConflicts` probes only the three folder entries
`.claude/commands/agents`, `.devflow`, `docs` (not `.gitignore`) and
returns exactly those of them that exist at `target/<name>`; in
particular, on a target containing a pre-existing `.devflow` and nothing
else it returns `[".devflow"]`. -/
theorem checkConflicts_exactly_existing (ex : String → Bool) (t f : String) :
    (f ∈ checkConflicts ex t
        ↔ f ∈ [".claude/commands/agents", ".devflow", "docs"]
            ∧ ex (joinPath t f) = true)
      ∧ checkConflicts devflowOnlyFS "t" = [".devflow"] := by
  constructor
  · have h := foldl_push_mem (fun folder => ex (joinPath t folder))
      foldersToCheck [] f
    unfold checkConflicts
    unfold foldersToCheck at h ⊢
    simpa using h
  · decide

/-- **C6, counterexample.** The claim says the conflict resolver abandons
only on an explicit negative answer (any leading `"n"`, case-insensitive)
and accepts anything else as continue.  The code instead continues only on
a leading `"y"`: the answer `"abort"` has no leading `"n"` yet is not
accepted as continue. -/
theorem conflictGate_rejects_non_n_answer :
    acceptsContinue "abort" = false
      ∧ jsStartsWith (jsToLower "abort") "n" = false := by decide

/-- **C6, amended.** With conflicts present, the installation proceeds iff
the answer's lowercase form starts with `"y"`; equivalently the run ends
in the cancelled state (exit 0) iff the answer does not.  Affirmative
answers `"y"`, `"yes"`, `"Y"` are accepted; `"n"`, `"N"`, and also the
empty answer or any other non-`"y"` answer, abandon the installation. -/
theorem conflictGate_continue_iff (w : InitWorld)
    (hclone : w.cloneOk = true)
    (hconf : checkConflicts w.ex (resolveTarget w) ≠ []) :
    ((initializeProject w).exitCode = some 0
        ↔ acceptsContinue w.answer = false)
      ∧ acceptsContinue "y" = true ∧ acceptsContinue "yes" = true
      ∧ acceptsContinue "Y" = true ∧ acceptsContinue "n" = false
      ∧ acceptsContinue "N" = false ∧ acceptsContinue "" = false := by
  refine ⟨?_, by decide, by decide, by decide, by decide, by decide, by decide⟩
  simp only [initializeProject]
  rw [if_pos hclone]
  by_cases ha : acceptsContinue w.answer = false
  · rw [if_pos ⟨hconf, ha⟩]
    simp [ha]
  · rw [if_neg fun hcontra => ha hcontra.2]
    simp [ha]

/-- Concrete world for the conflict-gate witness: the target holds a
pre-existing `.devflow`, the user answers `"ok"`. -/
def gateWitWorld : InitWorld :=
  { folder := none, cwd := "t", ex := fun p => p == joinPath "t" ".devflow",
    answer := "ok", cloneOk := true, tmplHasAgents := true,
    tmplHasDevflow := true, tmplHasDocs := true,
    tmplGitignore := none, targetGitignore := none }

/-- Witness for `conflictGate_continue_iff` at `gateWitWorld`. -/
theorem conflictGate_continue_iff_witness :
    gateWitWorld.cloneOk = true
      ∧ checkConflicts gateWitWorld.ex (resolveTarget gateWitWorld) ≠ []
      ∧ (((initializeProject gateWitWorld).exitCode = some 0
            ↔ acceptsContinue gateWitWorld.answer = false)
          ∧ acceptsContinue "y" = true ∧ acceptsContinue "yes" = true
          ∧ acceptsContinue "Y" = true ∧ acceptsContinue "n" = false
          ∧ acceptsContinue "N" = false ∧ acceptsContinue "" = false) :=
  ⟨rfl, by decide, conflictGate_continue_iff gateWitWorld rfl (by decide)⟩

/-- **C8.** In the config-merge step of a run that reaches it (clone
succeeded, conflict gate passed): if the template provides a `.gitignore`
and the target has none, the resulting target `.gitignore` is
byte-identical to the template's; if the target already has one, the
result is the target's original content, a single newline, then the
template's content (no de-duplication), written by exactly one file write
(one merged write, no fresh copy). -/
theorem gitignoreMerge_correct (w : InitWorld) (dev : String)
    (hclone : w.cloneOk = true)
    (hyes : acceptsContinue w.answer = true)
    (htmpl : w.tmplGitignore = some dev) :
    (w.targetGitignore = none →
        (initializeProject w).gitignore = some dev)
      ∧ (∀ old, w.targetGitignore = some old →
          (initializeProject w).gitignore = some (old ++ "\n" ++ dev)
            ∧ (initializeProject w).steps.count Step.mergeGitignoreWrite = 1
            ∧ (initializeProject w).steps.count Step.copyGitignoreFresh = 0) := by
  have hgate :
      ¬(checkConflicts w.ex (resolveTarget w) ≠ []
          ∧ acceptsContinue w.answer = false) := by
    rintro ⟨-, hfalse⟩
    rw [hyes] at hfalse
    exact Bool.noConfusion hfalse
  simp only [initializeProject]
  rw [if_pos hclone, if_neg hgate]
  constructor
  · intro htgt
    simp [htmpl, htgt, mergeGitignore]
  · intro old htgt
    refine ⟨?_, ?_, ?_⟩
    · simp [htmpl, htgt, mergeGitignore]
    · simp only [htmpl, htgt]
      split_ifs <;> decide
    · simp only [htmpl, htgt]
      split_ifs <;> decide

/-- Concrete world for the `.gitignore`-merge witness: the target already
has a `.gitignore` with content `"dist"`, the template provides one with
content `"node_modules"`, there are no conflicts, and the run reaches the
merge step. -/
def mergeWitWorld : InitWorld :=
  { folder := none, cwd := "t", ex := fun _ => false, answer := "y",
    cloneOk := true, tmplHasAgents := true, tmplHasDevflow := true,
    tmplHasDocs := true, tmplGitignore := some "node_modules",
    targetGitignore := some "dist" }

/-- Witness for `gitignoreMerge_correct` at `mergeWitWorld`. -/
theorem gitignoreMerge_correct_witness :
    mergeWitWorld.cloneOk = true
      ∧ acceptsContinue mergeWitWorld.answer = true
      ∧ mergeWitWorld.tmplGitignore = some "node_modules"
      ∧ ((initializeProject mergeWitWorld).gitignore
            = some ("dist" ++ "\x0a" ++ "node_modules")
          ∧ (initializeProject mergeWitWorld).steps.count Step.mergeGitignoreWrite = 1
          ∧ (initializeProject mergeWitWorld).steps.count Step.copyGitignoreFresh = 0) :=
  ⟨rfl, by decide, rfl,
    (gitignoreMerge_correct mergeWitWorld "node_modules" rfl (by decide) rfl).2
      "dist" rfl⟩

/-- Concrete world exhibiting the declined-prompt path: the target `t`
already contains `.devflow`, the clone succeeds, and the user answers
`"n"`. -/
def declineWorld : InitWorld :=
  { folder := none, cwd := "t", ex := fun p => p == joinPath "t" ".devflow",
    answer := "n", cloneOk := true, tmplHasAgents := true,
    tmplHasDevflow := true, tmplHasDocs := true,
    tmplGitignore := some "node_modules", targetGitignore := none }

/-- **C1.** When the user declines the conflict prompt, the run terminates
with exit code 0 and nothing under the target's `.claude`, `.devflow` or
`docs` paths (nor its `.gitignore`) is mutated — but, contrary to the
claim, the temp workspace is **not** removed: `process.exit(0)` at
src/unnamed/part_000 line 187 terminates the Node process immediately,
so the `finally` block holding the cleanup (lines 226-237) never runs and
no `removeTemp` effect occurs on this path. -/
theorem decline_exit_zero_no_mutation_temp_left :
    (initializeProject declineWorld).exitCode = some 0
      ∧ Step.copyAgents ∉ (initializeProject declineWorld).steps
      ∧ Step.makeDevflow ∉ (initializeProject declineWorld).steps
      ∧ Step.copyDocs ∉ (initializeProject declineWorld).steps
      ∧ Step.mkdirSnapshots ∉ (initializeProject declineWorld).steps
      ∧ Step.mergeGitignoreWrite ∉ (initializeProject declineWorld).steps
      ∧ Step.copyGitignoreFresh ∉ (initializeProject declineWorld).steps
      ∧ (initializeProject declineWorld).gitignore
          = declineWorld.targetGitignore
      ∧ Step.removeTemp ∉ (initializeProject declineWorld).steps := by
  decide

/-! ## IDE updater (src/src/ide.ts lines 221-249)

The ambient state is an `IdeWorld` (whether the local `web` subtree
exists, and the two version-probe results); the run is summarised as a
trace of `IdeAction`s. -/

structure IdeWorld where
  webExists : Bool
  localVersion : Option String
  remoteVersion : Option String

inductive IdeAction where
  | versionCheck
  | reportUpToDate
  | reportUpdating
  | reportInstalling
  | cloneTemp
  | removeWeb
  | copyWeb
  | removeTemp
  | reportSuccess
deriving DecidableEq

/-- `hasUpdate` as computed by `checkForUpdate` (src/src/ide.ts
lines 69-72): an update exists only when both versions were determined
and the remote one is strictly newer. -/
def hasUpdate (w : IdeWorld) : Bool :=
  match w.localVersion, w.remoteVersion with
  | some l, some r => isNewerVersion r l
  | _, _ => false

/-- Effect trace of `setupWebFolder` (src/src/ide.ts lines 168-219) on its
success path: clone into a temp folder, optionally remove the existing
`web` subtree, copy the fresh one in, and clean up the temp folder. -/
def setupWebFolderTrace (replace : Bool) : List IdeAction :=
  [IdeAction.cloneTemp]
    ++ (if replace then [IdeAction.removeWeb] else [])
    ++ [IdeAction.copyWeb, IdeAction.removeTemp]

/-- Embedding of `updateIde` (src/src/ide.ts lines 221-249): when the
local `web` subtree exists the versions are checked first, and without an
update the function reports "already up to date" and returns; otherwise
(or when the subtree is absent) it runs `setupWebFolder` with
`replace = true`. -/
def updateIde (w : IdeWorld) : List IdeAction :=
  if w.webExists then
    if hasUpdate w = false then
      [IdeAction.versionCheck, IdeAction.reportUpToDate]
    else
      [IdeAction.versionCheck, IdeAction.reportUpdating]
        ++ setupWebFolderTrace true ++ [IdeAction.reportSuccess]
  else
    [IdeAction.reportInstalling] ++ setupWebFolderTrace true
      ++ [IdeAction.reportSuccess]

/-- Concrete world with 16-digit version segments at the double-precision
boundary: local `"9007199254740993.1"`, remote `"9007199254740992.9"`. -/
def bigVersionWorld : IdeWorld :=
  { webExists := true, localVersion := some "9007199254740993.1",
    remoteVersion := some "9007199254740992.9" }

/-- **C9, counterexample.** The claim reads "local not older than remote"
as the exact integer comparison of spec §4.2, under which the local
version below is strictly newer than the remote one (so certainly not
older, and no clone should happen).  But the program compares doubles:
`Number` rounds both leading segments to `9007199254740992`, the second
segments then give `9 > 1`, `hasUpdate` is `true`, and `updateIde`
clones, deletes and reinstalls the web subtree. -/
theorem updateIde_bigVersion_counterexample :
    bigVersionWorld.webExists = true
      ∧ specIsNewer (parseVersion "9007199254740992.9")
          (parseVersion "9007199254740993.1") = false
      ∧ IdeAction.cloneTemp ∈ updateIde bigVersionWorld
      ∧ IdeAction.removeWeb ∈ updateIde bigVersionWorld
      ∧ IdeAction.copyWeb ∈ updateIde bigVersionWorld
      ∧ updateIde bigVersionWorld
          ≠ [IdeAction.versionCheck, IdeAction.reportUpToDate] := by decide

/-- **C9, amended.** When the local web subtree exists, `updateIde` always
performs the version check first; and whenever that check — the program's
own double-precision comparison `isNewerVersion`, which agrees with the
spec's integer comparison below `2 ^ 53` but may differ above — reports no
update (local not older than remote under that comparison, or either
version undeterminable/`none`), it reports "already up to date" and
performs no clone and no mutation of the web subtree (undeterminable
resolves to no-update). -/
theorem updateIde_up_to_date (w : IdeWorld) (hweb : w.webExists = true)
    (hnu : ∀ l r, w.localVersion = some l → w.remoteVersion = some r →
      isNewerVersion r l = false) :
    updateIde w = [IdeAction.versionCheck, IdeAction.reportUpToDate]
      ∧ IdeAction.cloneTemp ∉ updateIde w
      ∧ IdeAction.removeWeb ∉ updateIde w
      ∧ IdeAction.copyWeb ∉ updateIde w
      ∧ (∀ w2 : IdeWorld, w2.webExists = true →
          (updateIde w2).head? = some IdeAction.versionCheck) := by
  have hupd : hasUpdate w = false := by
    unfold hasUpdate
    cases hl : w.localVersion with
    | none => rfl
    | some l =>
      cases hr : w.remoteVersion with
      | none => rfl
      | some r => exact hnu l r hl hr
  have htrace : updateIde w = [IdeAction.versionCheck, IdeAction.reportUpToDate] := by
    unfold updateIde
    rw [if_pos hweb, if_pos hupd]
  refine ⟨htrace, ?_, ?_, ?_, ?_⟩
  · rw [htrace]; decide
  · rw [htrace]; decide
  · rw [htrace]; decide
  · intro w2 hweb2
    unfold updateIde
    rw [if_pos hweb2]
    by_cases h2 : hasUpdate w2 = false
    · rw [if_pos h2]; rfl
    · rw [if_neg h2]; rfl

/-- Concrete world for the updater witness: the subtree exists and both
versions were determined equal. -/
def upToDateWorld : IdeWorld :=
  { webExists := true, localVersion := some "1.2.3",
    remoteVersion := some "1.2.3" }

/-- Witness for `updateIde_up_to_date` at `upToDateWorld`. -/
theorem updateIde_up_to_date_witness :
    upToDateWorld.webExists = true
      ∧ (updateIde upToDateWorld
            = [IdeAction.versionCheck, IdeAction.reportUpToDate]
          ∧ IdeAction.cloneTemp ∉ updateIde upToDateWorld
          ∧ IdeAction.removeWeb ∉ updateIde upToDateWorld
          ∧ IdeAction.copyWeb ∉ updateIde upToDateWorld
          ∧ (∀ w2 : IdeWorld, w2.webExists = true →
              (updateIde w2).head? = some IdeAction.versionCheck)) :=
  ⟨rfl,
    updateIde_up_to_date upToDateWorld rfl
      (by
        intro l r hl hr
        have hl2 : l = "1.2.3" := by
          simpa [upToDateWorld] using hl.symm
        have hr2 : r = "1.2.3" := by
          simpa [upToDateWorld] using hr.symm
        subst hl2
        subst hr2
        decide)⟩

end Devflow
